import Mathlib

/-!
Verification of the FixFlow technical-debt tracker (TypeScript sources under
`src/`).  The services are shallowly embedded: strings are lists of
characters, timestamps are natural numbers (the clock is constant during a
single operation, matching the single-threaded run-to-completion model), the
storage file and lock marker are explicit fields of a state record, and every
fallible operation returns an `Except` result paired with the post-state.
-/

namespace FixFlow

/-- Strings are modelled as lists of characters so that operations such as
trimming can be reasoned about by induction. -/
abbrev Str : Type := List Char

/-- Coerce a Lean string literal into the character-list model. -/
def strOf (s : String) : Str := s.data

instance {e a : Type} [DecidableEq e] [DecidableEq a] : DecidableEq (Except e a) :=
  fun x y =>
    match x, y with
    | .ok u, .ok v =>
      if h : u = v then .isTrue (by rw [h])
      else .isFalse (fun hc => h (by cases hc; rfl))
    | .error u, .error v =>
      if h : u = v then .isTrue (by rw [h])
      else .isFalse (fun hc => h (by cases hc; rfl))
    | .ok _, .error _ => .isFalse (fun hc => Except.noConfusion hc)
    | .error _, .ok _ => .isFalse (fun hc => Except.noConfusion hc)

/-- JavaScript `String.prototype.trim`: drop whitespace from both ends. -/
def trimL (s : Str) : Str :=
  ((s.dropWhile Char.isWhitespace).reverse.dropWhile Char.isWhitespace).reverse

/-- Severity enum from `src/types/index.ts`. -/
inductive DebtSeverity
  | low | medium | high | critical
deriving DecidableEq, Repr

/-- Category enum from `src/types/index.ts`. -/
inductive DebtCategory
  | codeQuality | performance | security | testing
  | documentation | architecture | refactoring | other
deriving DecidableEq, Repr

/-- Status enum from `src/types/index.ts` (`Open` stands for the serialized
token `"open"`, which is a keyword in Lean). -/
inductive DebtStatus
  | Open | inProgress | review | resolved | closed
deriving DecidableEq, Repr

/-- Priority enum from `src/types/index.ts`. -/
inductive DebtPriority
  | low | normal | high | urgent
deriving DecidableEq, Repr

/-- The `TechnicalDebt` interface from `src/types/index.ts`.  `Date` values
are modelled as natural-number timestamps; optional fields are `Option`s. -/
structure TechnicalDebt where
  id : Str
  title : Str
  description : Str
  filePath : Str
  lineNumber : Int
  severity : DebtSeverity
  category : DebtCategory
  status : DebtStatus
  priority : DebtPriority
  createdAt : Nat
  updatedAt : Nat
  dueDate : Option Nat := none
  tags : List Str
  context : Option Str := none
  assignee : Option Str := none
  estimatedEffort : Option Str := none
  notes : Option Str := none
deriving DecidableEq, Repr

/-- `Omit<TechnicalDebt, 'id' | 'createdAt' | 'updatedAt'>`: the caller-supplied
fields of a new entry (argument of `addDebt` / `createDebt`). -/
structure DebtFields where
  title : Str
  description : Str
  filePath : Str
  lineNumber : Int
  severity : DebtSeverity
  category : DebtCategory
  status : DebtStatus
  priority : DebtPriority
  dueDate : Option Nat := none
  tags : List Str
  context : Option Str := none
  assignee : Option Str := none
  estimatedEffort : Option Str := none
  notes : Option Str := none
deriving DecidableEq, Repr

/-- `Partial<Omit<TechnicalDebt, 'id' | 'createdAt'>>`: a partial update.
`none` means the field is absent from the partial object. -/
structure DebtPatch where
  title : Option Str := none
  description : Option Str := none
  filePath : Option Str := none
  lineNumber : Option Int := none
  severity : Option DebtSeverity := none
  category : Option DebtCategory := none
  status : Option DebtStatus := none
  priority : Option DebtPriority := none
  updatedAt : Option Nat := none
  dueDate : Option (Option Nat) := none
  tags : Option (List Str) := none
  context : Option (Option Str) := none
  assignee : Option (Option Str) := none
  estimatedEffort : Option (Option Str) := none
  notes : Option (Option Str) := none
deriving DecidableEq, Repr

/-- `StorageData.metadata` from `src/services/storage-service.ts`
(`lastUpdated` is an ISO string in the source; it is modelled by the
timestamp it denotes). -/
structure StorageMetadata where
  version : Str
  lastUpdated : Nat
  totalDebts : Nat
  projectName : Option Str := none
deriving DecidableEq, Repr

/-- `StorageData.settings` from `src/services/storage-service.ts`. -/
structure StorageSettings where
  githubIntegration : Bool
  autoCommit : Bool
  autoPush : Bool
  commitMessageTemplate : Str
deriving DecidableEq, Repr

/-- The `StorageData` interface from `src/services/storage-service.ts`. -/
structure StorageData where
  debts : List TechnicalDebt
  metadata : StorageMetadata
  settings : StorageSettings
deriving DecidableEq, Repr

/-- Classified errors thrown by the storage and debt services.  Each
constructor corresponds to one `throw new Error(...)` site in the source. -/
inductive StorageErr
  /-- `'Storage is already locked'` (re-entrant `acquireLock`). -/
  | alreadyLocked
  /-- `'Storage is locked by another process'` (fresh lock marker). -/
  | lockContention
  /-- `'Storage file not found'` in `readData`. -/
  | fileNotFound
  /-- A `JSON.parse` failure inside `readData` / `validateStorageFile`. -/
  | parseFailure
  /-- An `'Invalid data structure' / 'Invalid debt structure'` failure from
  `validateDataStructure`. -/
  | invalidStructure
  /-- `'Storage file is corrupted and has been backed up'` from
  `validateStorageFile`. -/
  | corrupted
  /-- `` `Debt with id ${id} not found` `` from update/delete/get paths. -/
  | notFound (id : Str)
  /-- `` `Invalid debt entry: ...` `` / `` `Invalid update: ...` `` from
  `validateDebtEntry` in the debt service. -/
  | invalidEntry (msgs : List Str)
  /-- `` `Invalid status transition from '...' to '...'` `` from
  `transitionStatus`. -/
  | invalidTransition (src dst : DebtStatus)
deriving DecidableEq, Repr

/-- The state a `StorageService` instance operates on: the parsed storage
file (when present and well typed), the sidecar lock marker with its mtime,
the instance's `isLocked` flag, the current clock, and the next value of
`Math.random().toString(36).substring(2, 8)`. -/
structure StorageState where
  file : Option StorageData
  lockMarker : Option Nat
  isLocked : Bool
  now : Nat
  rand : Str
deriving DecidableEq, Repr

/-- `findIndex` on a list (the source's `Array.prototype.findIndex`,
returning the index of the first match or `-1`, here `Option Nat`). -/
def findIndex? {α : Type} (p : α → Bool) : List α → Option Nat
  | [] => none
  | a :: l => if p a then some 0 else (findIndex? p l).map (· + 1)

namespace StorageService

/-- The entry-level part of `validateDataStructure`
(`StorageService.validateDebtStructure`), restricted to well-typed entries:
field presence and `typeof` checks hold by typing; what remains is that
`id`, `title`, `filePath` are non-empty after trimming and that
`lineNumber >= 1`.  (`description` is only checked for presence in the
source, so nothing remains of it at the typed level.) -/
def validateDebtStructureTyped (d : TechnicalDebt) : Bool :=
  !(trimL d.id == []) && !(trimL d.title == []) && !(trimL d.filePath == [])
    && decide (1 ≤ d.lineNumber)

/-- `StorageService.validateDataStructure`, restricted to well-typed
documents: `debts` is an array and `metadata` / `settings` are objects by
typing; each entry must pass `validateDebtStructure`. -/
def validateDataStructureTyped (data : StorageData) : Bool :=
  data.debts.all validateDebtStructureTyped

/-- `StorageService.acquireLock`: fail when already locked; fail with
contention when a lock marker exists whose age is under 30000 ms; otherwise
remove any stale marker and write a fresh one (mtime = now). -/
def acquireLock (st : StorageState) : Except StorageErr StorageState :=
  if st.isLocked then .error .alreadyLocked
  else
    match st.lockMarker with
    | some t =>
        if st.now - t < 30000 then .error .lockContention
        else .ok { st with lockMarker := some st.now, isLocked := true }
    | none => .ok { st with lockMarker := some st.now, isLocked := true }

/-- `StorageService.releaseLock`: a no-op unless this instance holds the
lock; otherwise delete the marker and clear the flag. -/
def releaseLock (st : StorageState) : StorageState :=
  if st.isLocked then { st with lockMarker := none, isLocked := false } else st

/-- `StorageService.readData` at the typed level (the file, when present, is
already-parsed well-typed data; the raw-bytes corruption path is modelled
separately below): acquire the lock, fail if the file is absent, validate
the structure, and always release the lock (the source's `finally`). -/
def readData (st : StorageState) : Except StorageErr StorageData × StorageState :=
  match acquireLock st with
  | .error e => (Except.error e, releaseLock st)
  | .ok st1 =>
    match st1.file with
    | none => (Except.error StorageErr.fileNotFound, releaseLock st1)
    | some d =>
        if validateDataStructureTyped d then (Except.ok d, releaseLock st1)
        else (Except.error StorageErr.invalidStructure, releaseLock st1)

/-- Stamp `metadata.lastUpdated` and recompute `metadata.totalDebts`, as
`writeData` does just before persisting. -/
def stamp (d : StorageData) (now : Nat) : StorageData :=
  { d with metadata :=
      { d.metadata with lastUpdated := now, totalDebts := d.debts.length } }

/-- `StorageService.writeData`: acquire the lock, validate the document,
stamp the metadata, persist the whole document, always release the lock. -/
def writeData (d : StorageData) (st : StorageState) :
    Except StorageErr Unit × StorageState :=
  match acquireLock st with
  | .error e => (Except.error e, releaseLock st)
  | .ok st1 =>
    if validateDataStructureTyped d then
      (Except.ok (), releaseLock { st1 with file := some (stamp d st1.now) })
    else (Except.error StorageErr.invalidStructure, releaseLock st1)

/-- `StorageService.generateDebtId`:
`` `${DEFAULTS.DEBT_ID_PREFIX}-${timestamp}-${random}` `` with
`DEBT_ID_PREFIX = 'debt'`, the current time, and a random base-36 suffix. -/
def generateDebtId (st : StorageState) : Str :=
  strOf "debt-" ++ strOf (toString st.now) ++ strOf "-" ++ st.rand

/-- Build the new entry added by `addDebt`: the caller's fields plus a
generated id and `createdAt = updatedAt = now` (both `new Date()` calls
happen at the same clock value). -/
def mkDebt (f : DebtFields) (id : Str) (now : Nat) : TechnicalDebt :=
  { id := id, title := f.title, description := f.description,
    filePath := f.filePath, lineNumber := f.lineNumber,
    severity := f.severity, category := f.category, status := f.status,
    priority := f.priority, createdAt := now, updatedAt := now,
    dueDate := f.dueDate, tags := f.tags, context := f.context,
    assignee := f.assignee, estimatedEffort := f.estimatedEffort,
    notes := f.notes }

/-- `StorageService.addDebt`: read, append the new entry, write. -/
def addDebt (f : DebtFields) (st : StorageState) :
    Except StorageErr TechnicalDebt × StorageState :=
  match readData st with
  | (Except.error e, st1) => (Except.error e, st1)
  | (Except.ok data, st1) =>
    let newDebt := mkDebt f (generateDebtId st1) st1.now
    match writeData { data with debts := data.debts ++ [newDebt] } st1 with
    | (Except.error e, st2) => (Except.error e, st2)
    | (Except.ok _, st2) => (Except.ok newDebt, st2)

/-- The merge `{ ...existing, ...updates, updatedAt: new Date() }` performed
by `StorageService.updateDebt`: present patch fields override, `id` and
`createdAt` are not in the patch type, and `updatedAt` is overwritten with
the current time regardless of the patch. -/
def applyPatch (e : TechnicalDebt) (p : DebtPatch) (now : Nat) : TechnicalDebt :=
  { id := e.id,
    title := p.title.getD e.title,
    description := p.description.getD e.description,
    filePath := p.filePath.getD e.filePath,
    lineNumber := p.lineNumber.getD e.lineNumber,
    severity := p.severity.getD e.severity,
    category := p.category.getD e.category,
    status := p.status.getD e.status,
    priority := p.priority.getD e.priority,
    createdAt := e.createdAt,
    updatedAt := now,
    dueDate := p.dueDate.getD e.dueDate,
    tags := p.tags.getD e.tags,
    context := p.context.getD e.context,
    assignee := p.assignee.getD e.assignee,
    estimatedEffort := p.estimatedEffort.getD e.estimatedEffort,
    notes := p.notes.getD e.notes }

/-- `StorageService.updateDebt`: read, locate by `findIndex`, merge, replace
in place, write. -/
def updateDebt (id : Str) (p : DebtPatch) (st : StorageState) :
    Except StorageErr TechnicalDebt × StorageState :=
  match readData st with
  | (Except.error e, st1) => (Except.error e, st1)
  | (Except.ok data, st1) =>
    match findIndex? (fun debt => debt.id == id) data.debts with
    | none => (Except.error (StorageErr.notFound id), st1)
    | some idx =>
      match data.debts.get? idx with
      | none => (Except.error (StorageErr.notFound id), st1)
      | some existing =>
        let updated := applyPatch existing p st1.now
        match writeData { data with debts := data.debts.set idx updated } st1 with
        | (Except.error e, st2) => (Except.error e, st2)
        | (Except.ok _, st2) => (Except.ok updated, st2)

/-- `StorageService.deleteDebt`: read, locate by `findIndex`, `splice` the
entry out, write. -/
def deleteDebt (id : Str) (st : StorageState) :
    Except StorageErr Unit × StorageState :=
  match readData st with
  | (Except.error e, st1) => (Except.error e, st1)
  | (Except.ok data, st1) =>
    match findIndex? (fun debt => debt.id == id) data.debts with
    | none => (Except.error (StorageErr.notFound id), st1)
    | some idx =>
      writeData { data with debts := data.debts.eraseIdx idx } st1

/-- `StorageService.getDebt`: read and `find`, yielding `null` (`none`) when
absent. -/
def getDebt (id : Str) (st : StorageState) :
    Except StorageErr (Option TechnicalDebt) × StorageState :=
  match readData st with
  | (Except.error e, st1) => (Except.error e, st1)
  | (Except.ok data, st1) => (Except.ok (data.debts.find? (fun debt => debt.id == id)), st1)

/-- `StorageService.getAllDebts`: read and return the entries sequence. -/
def getAllDebts (st : StorageState) :
    Except StorageErr (List TechnicalDebt) × StorageState :=
  match readData st with
  | (Except.error e, st1) => (Except.error e, st1)
  | (Except.ok data, st1) => (Except.ok data.debts, st1)

end StorageService

namespace DebtService

/-- `DebtService.allowedStatusTransitions` from `src/services/debt-service.ts`. -/
def allowedStatusTransitions : DebtStatus → List DebtStatus
  | .Open => [.inProgress, .review, .resolved, .closed]
  | .inProgress => [.review, .resolved, .Open]
  | .review => [.resolved, .inProgress, .Open]
  | .resolved => [.closed, .Open]
  | .closed => [.Open]

/-- `validateDebtEntry` from `src/utils/index.ts`, applied to the four fields
it inspects (on the merged/complete entry those fields are always present):
title and description must be non-blank, filePath non-empty (no trim in the
source), `lineNumber >= 0` (the source checks `< 0`, not `< 1`), title at
most 100 characters, description at most 500. -/
def validateDebtEntry (title description filePath : Str) (lineNumber : Int) :
    List Str :=
  (if title == [] || trimL title == [] then [strOf "Title is required"] else []) ++
  (if description == [] || trimL description == [] then
    [strOf "Description is required"] else []) ++
  (if filePath == [] then [strOf "File path is required"] else []) ++
  (if lineNumber < 0 then [strOf "Valid line number is required"] else []) ++
  (if !(title == []) && title.length > 100 then
    [strOf "Title must be 100 characters or less"] else []) ++
  (if !(description == []) && description.length > 500 then
    [strOf "Description must be 500 characters or less"] else [])

/-- `DebtService.createDebt`: validate the caller fields, then delegate to
`StorageService.addDebt`. -/
def createDebt (f : DebtFields) (st : StorageState) :
    Except StorageErr TechnicalDebt × StorageState :=
  let errs := validateDebtEntry f.title f.description f.filePath f.lineNumber
  if errs == [] then StorageService.addDebt f st
  else (Except.error (StorageErr.invalidEntry errs), st)

/-- `DebtService.updateDebt`: load the existing entry (fail `notFound` when
absent), re-validate the merged result, then delegate to
`StorageService.updateDebt`.  Note: no status-transition check happens
here. -/
def updateDebt (id : Str) (p : DebtPatch) (st : StorageState) :
    Except StorageErr TechnicalDebt × StorageState :=
  match StorageService.getDebt id st with
  | (Except.error e, st1) => (Except.error e, st1)
  | (Except.ok none, st1) => (Except.error (StorageErr.notFound id), st1)
  | (Except.ok (some existing), st1) =>
    let errs := validateDebtEntry (p.title.getD existing.title)
      (p.description.getD existing.description)
      (p.filePath.getD existing.filePath)
      (p.lineNumber.getD existing.lineNumber)
    if errs == [] then StorageService.updateDebt id p st1
    else (Except.error (StorageErr.invalidEntry errs), st1)

/-- `DebtService.transitionStatus`: load the entry, check the whitelist,
then persist `{ status: newStatus }` via `StorageService.updateDebt`. -/
def transitionStatus (id : Str) (newStatus : DebtStatus) (st : StorageState) :
    Except StorageErr TechnicalDebt × StorageState :=
  match StorageService.getDebt id st with
  | (Except.error e, st1) => (Except.error e, st1)
  | (Except.ok none, st1) => (Except.error (StorageErr.notFound id), st1)
  | (Except.ok (some debt), st1) =>
    if (allowedStatusTransitions debt.status).contains newStatus then
      StorageService.updateDebt id { status := some newStatus } st1
    else (Except.error (StorageErr.invalidTransition debt.status newStatus), st1)

/-- `DebtService.deleteDebt` delegates to the storage service. -/
def deleteDebt (id : Str) (st : StorageState) :
    Except StorageErr Unit × StorageState :=
  StorageService.deleteDebt id st

/-- `DebtService.getAllDebts` delegates to the storage service. -/
def getAllDebts (st : StorageState) :
    Except StorageErr (List TechnicalDebt) × StorageState :=
  StorageService.getAllDebts st

end DebtService

/-- A state on which a storage operation can run cleanly: the file holds a
structurally valid document, the instance does not hold the lock, and no
lock marker is present. -/
def Ready (st : StorageState) (d : StorageData) : Prop :=
  st.file = some d ∧ StorageService.validateDataStructureTyped d = true ∧
    st.isLocked = false ∧ st.lockMarker = none

theorem acquireLock_ready {st : StorageState} (hl : st.isLocked = false)
    (hm : st.lockMarker = none) :
    StorageService.acquireLock st =
      Except.ok { st with lockMarker := some st.now, isLocked := true } := by
  simp [StorageService.acquireLock, hl, hm]

theorem releaseLock_acquired {st : StorageState} (hl : st.isLocked = false)
    (hm : st.lockMarker = none) :
    StorageService.releaseLock { st with lockMarker := some st.now, isLocked := true } = st := by
  cases st
  simp_all [StorageService.releaseLock]

theorem readData_ready {st : StorageState} {d : StorageData} (h : Ready st d) :
    StorageService.readData st = (Except.ok d, st) := by
  obtain ⟨hf, hv, hl, hm⟩ := h
  cases st
  simp_all [StorageService.readData, StorageService.acquireLock,
    StorageService.releaseLock]

theorem writeData_ok {st : StorageState} {d : StorageData}
    (hl : st.isLocked = false) (hm : st.lockMarker = none)
    (hv : StorageService.validateDataStructureTyped d = true) :
    StorageService.writeData d st =
      (Except.ok (), { st with file := some (StorageService.stamp d st.now) }) := by
  simp [StorageService.writeData, acquireLock_ready hl hm, hv,
    StorageService.releaseLock]
  cases st
  simp_all

theorem writeData_invalid {st : StorageState} {d : StorageData}
    (hl : st.isLocked = false) (hm : st.lockMarker = none)
    (hv : StorageService.validateDataStructureTyped d = false) :
    StorageService.writeData d st = (Except.error StorageErr.invalidStructure, st) := by
  simp [StorageService.writeData, acquireLock_ready hl hm, hv,
    releaseLock_acquired hl hm]

theorem findIndex?_eq_none_iff {α : Type} {p : α → Bool} {l : List α} :
    findIndex? p l = none ↔ ∀ a ∈ l, p a = false := by
  induction l with
  | nil => simp [findIndex?]
  | cons a l ih =>
    by_cases hpa : p a <;> simp [findIndex?, hpa, ih]

theorem findIndex?_some {α : Type} {p : α → Bool} {l : List α} {i : Nat}
    (h : findIndex? p l = some i) :
    ∃ a, l.get? i = some a ∧ p a = true := by
  induction l generalizing i with
  | nil => simp [findIndex?] at h
  | cons b l ih =>
    by_cases hpb : p b
    · simp [findIndex?, hpb] at h
      subst h
      exact ⟨b, rfl, hpb⟩
    · simp [findIndex?, hpb] at h
      obtain ⟨j, hj, rfl⟩ := h
      obtain ⟨a, ha, hpa⟩ := ih hj
      exact ⟨a, by simpa using ha, hpa⟩

theorem find?_some_findIndex? {α : Type} {p : α → Bool} {l : List α} {a : α}
    (h : l.find? p = some a) :
    ∃ i, findIndex? p l = some i ∧ l.get? i = some a ∧ p a = true := by
  induction l with
  | nil => simp at h
  | cons b l ih =>
    by_cases hpb : p b
    · rw [List.find?_cons_of_pos _ hpb] at h
      cases h
      exact ⟨0, by simp [findIndex?, hpb], rfl, hpb⟩
    · rw [List.find?_cons_of_neg _ hpb] at h
      obtain ⟨i, hi, hg, hpa⟩ := ih h
      exact ⟨i + 1, by simp [findIndex?, hpb, hi], by simpa using hg, hpa⟩

theorem countP_eraseIdx_findIndex? {α : Type} {p : α → Bool} {l : List α} {i : Nat}
    (h : findIndex? p l = some i) :
    l.countP p = (l.eraseIdx i).countP p + 1 := by
  induction l generalizing i with
  | nil => simp [findIndex?] at h
  | cons b l ih =>
    by_cases hpb : p b
    · simp [findIndex?, hpb] at h
      subst h
      simp [List.eraseIdx, List.countP_cons, hpb]
    · simp [findIndex?, hpb] at h
      obtain ⟨j, hj, rfl⟩ := h
      simp [List.eraseIdx, List.countP_cons, hpb, ih hj]

theorem all_eraseIdx {α : Type} {p : α → Bool} {l : List α} {i : Nat}
    (h : l.all p = true) : (l.eraseIdx i).all p = true := by
  induction l generalizing i with
  | nil => simp [List.eraseIdx]
  | cons b l ih =>
    cases i with
    | zero => simp_all [List.eraseIdx]
    | succ j =>
      simp only [List.all_cons, Bool.and_eq_true] at h
      simp [List.eraseIdx, List.all_cons, h.1, ih h.2]

theorem all_set {α : Type} {p : α → Bool} {l : List α} {i : Nat} {a : α}
    (h : l.all p = true) (ha : p a = true) : (l.set i a).all p = true := by
  induction l generalizing i with
  | nil => simp [List.set]
  | cons b l ih =>
    cases i with
    | zero =>
      simp only [List.all_cons, Bool.and_eq_true] at h
      simp [List.set, ha, h.2]
    | succ j =>
      simp only [List.all_cons, Bool.and_eq_true] at h
      simp [List.set, h.1, ih h.2]

theorem stamp_validate (d : StorageData) (now : Nat) :
    StorageService.validateDataStructureTyped (StorageService.stamp d now) =
      StorageService.validateDataStructureTyped d := by
  simp [StorageService.validateDataStructureTyped, StorageService.stamp]

theorem addDebt_ready {st : StorageState} {d : StorageData} {f : DebtFields}
    (h : Ready st d) :
    StorageService.addDebt f st =
      (if StorageService.validateDebtStructureTyped
          (StorageService.mkDebt f (StorageService.generateDebtId st) st.now) then
        (Except.ok (StorageService.mkDebt f (StorageService.generateDebtId st) st.now),
          { st with file := some (StorageService.stamp
            { d with debts := d.debts ++
              [StorageService.mkDebt f (StorageService.generateDebtId st) st.now] } st.now) })
      else (Except.error StorageErr.invalidStructure, st)) := by
  obtain ⟨hf, hv, hl, hm⟩ := h
  have hr := readData_ready ⟨hf, hv, hl, hm⟩
  by_cases hnd : StorageService.validateDebtStructureTyped
      (StorageService.mkDebt f (StorageService.generateDebtId st) st.now) = true
  · have hv2 : StorageService.validateDataStructureTyped
        { d with debts := d.debts ++
          [StorageService.mkDebt f (StorageService.generateDebtId st) st.now] } = true := by
      simp only [StorageService.validateDataStructureTyped] at hv ⊢
      simp [List.all_append, hv, hnd]
    simp [StorageService.addDebt, hr, writeData_ok hl hm hv2, hnd]
  · have hv2 : StorageService.validateDataStructureTyped
        { d with debts := d.debts ++
          [StorageService.mkDebt f (StorageService.generateDebtId st) st.now] } = false := by
      simp only [StorageService.validateDataStructureTyped] at hv ⊢
      simp [List.all_append, hv]
      simpa using hnd
    simp [StorageService.addDebt, hr, writeData_invalid hl hm hv2, hnd]

theorem storage_updateDebt_notFound {st : StorageState} {d : StorageData}
    {id : Str} {p : DebtPatch} (h : Ready st d)
    (hni : findIndex? (fun debt => debt.id == id) d.debts = none) :
    StorageService.updateDebt id p st = (Except.error (StorageErr.notFound id), st) := by
  simp [StorageService.updateDebt, readData_ready h, hni]

theorem storage_updateDebt_found {st : StorageState} {d : StorageData}
    {id : Str} {p : DebtPatch} {idx : Nat} {existing : TechnicalDebt}
    (h : Ready st d)
    (hi : findIndex? (fun debt => debt.id == id) d.debts = some idx)
    (hg : d.debts.get? idx = some existing)
    (hok : StorageService.validateDebtStructureTyped
      (StorageService.applyPatch existing p st.now) = true) :
    StorageService.updateDebt id p st =
      (Except.ok (StorageService.applyPatch existing p st.now),
        { st with file := some (StorageService.stamp
          { d with debts := d.debts.set idx (StorageService.applyPatch existing p st.now) }
          st.now) }) := by
  obtain ⟨hf, hv, hl, hm⟩ := h
  have hv2 : StorageService.validateDataStructureTyped
      { d with debts := d.debts.set idx (StorageService.applyPatch existing p st.now) } = true := by
    simp only [StorageService.validateDataStructureTyped] at hv ⊢
    exact all_set hv hok
  rw [List.get?_eq_getElem?] at hg
  simp [StorageService.updateDebt, readData_ready ⟨hf, hv, hl, hm⟩, hi, hg,
    writeData_ok hl hm hv2]

theorem storage_updateDebt_found_invalid {st : StorageState} {d : StorageData}
    {id : Str} {p : DebtPatch} {idx : Nat} {existing : TechnicalDebt}
    (h : Ready st d)
    (hi : findIndex? (fun debt => debt.id == id) d.debts = some idx)
    (hg : d.debts.get? idx = some existing)
    (hset : StorageService.validateDataStructureTyped
      { d with debts := d.debts.set idx (StorageService.applyPatch existing p st.now) } = false) :
    StorageService.updateDebt id p st = (Except.error StorageErr.invalidStructure, st) := by
  obtain ⟨hf, hv, hl, hm⟩ := h
  rw [List.get?_eq_getElem?] at hg
  simp [StorageService.updateDebt, readData_ready ⟨hf, hv, hl, hm⟩, hi, hg,
    writeData_invalid hl hm hset]

theorem deleteDebt_ready_notFound {st : StorageState} {d : StorageData} {id : Str}
    (h : Ready st d)
    (hni : findIndex? (fun debt => debt.id == id) d.debts = none) :
    StorageService.deleteDebt id st = (Except.error (StorageErr.notFound id), st) := by
  simp [StorageService.deleteDebt, readData_ready h, hni]

theorem deleteDebt_ready_found {st : StorageState} {d : StorageData} {id : Str}
    {idx : Nat} (h : Ready st d)
    (hi : findIndex? (fun debt => debt.id == id) d.debts = some idx) :
    StorageService.deleteDebt id st =
      (Except.ok (), { st with file := some (StorageService.stamp
        { d with debts := d.debts.eraseIdx idx } st.now) }) := by
  obtain ⟨hf, hv, hl, hm⟩ := h
  have hv2 : StorageService.validateDataStructureTyped
      { d with debts := d.debts.eraseIdx idx } = true := by
    simp only [StorageService.validateDataStructureTyped] at hv ⊢
    exact all_eraseIdx hv
  simp [StorageService.deleteDebt, readData_ready ⟨hf, hv, hl, hm⟩, hi,
    writeData_ok hl hm hv2]

theorem getDebt_ready {st : StorageState} {d : StorageData} {id : Str}
    (h : Ready st d) :
    StorageService.getDebt id st =
      (Except.ok (d.debts.find? (fun debt => debt.id == id)), st) := by
  simp [StorageService.getDebt, readData_ready h]

theorem getAllDebts_ready {st : StorageState} {d : StorageData}
    (h : Ready st d) :
    StorageService.getAllDebts st = (Except.ok d.debts, st) := by
  simp [StorageService.getAllDebts, readData_ready h]

/-- A debt entry with status `closed`, used as concrete test data. -/
def closedEntry : TechnicalDebt :=
  { id := strOf "d1", title := strOf "Legacy parser", description := strOf "Rewrite it",
    filePath := strOf "src/a.ts", lineNumber := 12, severity := DebtSeverity.low,
    category := DebtCategory.codeQuality, status := DebtStatus.closed,
    priority := DebtPriority.normal, createdAt := 5, updatedAt := 5,
    tags := [strOf "legacy"] }

/-- A structurally valid one-entry storage document, used as concrete test data. -/
def sampleDoc : StorageData :=
  { debts := [closedEntry],
    metadata := { version := strOf "1.0.0", lastUpdated := 5, totalDebts := 1,
                  projectName := some (strOf "demo") },
    settings := { githubIntegration := false, autoCommit := false, autoPush := false,
                  commitMessageTemplate := strOf "fix: update technical debt" } }

/-- A ready state holding `sampleDoc`, used as concrete test data. -/
def sampleSt : StorageState :=
  { file := some sampleDoc, lockMarker := none, isLocked := false, now := 100,
    rand := strOf "k3qz7p" }

/-- C9: with the instance not holding the lock, acquisition fails with the
lock-contention error exactly when a lock marker exists whose age
`now - mtime` is strictly below the 30000 ms staleness threshold; when the
age is at or above the threshold the stale marker is replaced by the
acquirer's fresh marker and acquisition succeeds. -/
theorem lock_staleness_spec (st : StorageState) (hl : st.isLocked = false) :
    (StorageService.acquireLock st = Except.error StorageErr.lockContention ↔
      ∃ t, st.lockMarker = some t ∧ st.now - t < 30000) ∧
    (∀ t, st.lockMarker = some t → 30000 ≤ st.now - t →
      StorageService.acquireLock st =
        Except.ok { st with lockMarker := some st.now, isLocked := true }) := by
  constructor
  · cases hmk : st.lockMarker with
    | none => simp [StorageService.acquireLock, hl, hmk]
    | some t =>
      by_cases hage : st.now - t < 30000 <;>
        simp [StorageService.acquireLock, hl, hmk, hage]
  · intro t hmk hage
    have : ¬ st.now - t < 30000 := by omega
    simp [StorageService.acquireLock, hl, hmk, this]

/-- Witness for C9: with `now = 90000`, a marker of mtime 80000 (age
10000 ms) causes lock contention, while a marker of mtime 60000 (age
30000 ms, exactly the threshold) is abandoned and acquisition succeeds. -/
theorem lock_staleness_spec_witness :
    StorageService.acquireLock
        { file := none, lockMarker := some 80000, isLocked := false, now := 90000,
          rand := [] } = Except.error StorageErr.lockContention ∧
    StorageService.acquireLock
        { file := none, lockMarker := some 60000, isLocked := false, now := 90000,
          rand := [] } =
      Except.ok
        { file := none, lockMarker := some 90000, isLocked := true,
          now := 90000, rand := [] } := by
  constructor
  · exact (lock_staleness_spec _ rfl).1.mpr ⟨80000, rfl, by decide⟩
  · exact (lock_staleness_spec _ rfl).2 60000 rfl (by decide)

/-- C6: for a structurally valid document `d`, `writeData d` followed by
`readData` succeeds and returns a document equal to `d` in every field
except `metadata.lastUpdated` (stamped with the write time) and
`metadata.totalDebts`, which is recomputed as the number of entries. -/
theorem write_read_roundtrip (d : StorageData) (st : StorageState)
    (hl : st.isLocked = false) (hm : st.lockMarker = none)
    (hv : StorageService.validateDataStructureTyped d = true) :
    ∃ st' d', StorageService.writeData d st = (Except.ok (), st') ∧
      StorageService.readData st' = (Except.ok d', st') ∧
      d'.debts = d.debts ∧ d'.settings = d.settings ∧
      d'.metadata.version = d.metadata.version ∧
      d'.metadata.projectName = d.metadata.projectName ∧
      d'.metadata.totalDebts = d.debts.length ∧
      d'.metadata.lastUpdated = st.now := by
  refine ⟨{ st with file := some (StorageService.stamp d st.now) },
    StorageService.stamp d st.now, writeData_ok hl hm hv, ?_, rfl, rfl, rfl, rfl, rfl, rfl⟩
  exact readData_ready ⟨rfl, by rw [stamp_validate]; exact hv, hl, hm⟩

/-- Witness for C6: the round-trip property applied to the concrete document
`sampleDoc` from the concrete ready state `sampleSt`. -/
theorem write_read_roundtrip_witness :
    ∃ st' d', StorageService.writeData sampleDoc sampleSt = (Except.ok (), st') ∧
      StorageService.readData st' = (Except.ok d', st') ∧
      d'.debts = sampleDoc.debts ∧ d'.settings = sampleDoc.settings ∧
      d'.metadata.version = sampleDoc.metadata.version ∧
      d'.metadata.projectName = sampleDoc.metadata.projectName ∧
      d'.metadata.totalDebts = sampleDoc.debts.length ∧
      d'.metadata.lastUpdated = sampleSt.now :=
  write_read_roundtrip sampleDoc sampleSt rfl rfl (by decide)

theorem get?_some_lt {α : Type} {l : List α} {i : Nat} {a : α}
    (h : l.get? i = some a) : i < l.length := by
  induction l generalizing i with
  | nil => simp at h
  | cons b l ih =>
    cases i with
    | zero => simp
    | succ j => simpa using Nat.succ_lt_succ (ih (by simpa using h))

theorem eraseIdx_length_succ {α : Type} {l : List α} {i : Nat}
    (h : i < l.length) : (l.eraseIdx i).length + 1 = l.length := by
  induction l generalizing i with
  | nil => simp at h
  | cons b l ih =>
    cases i with
    | zero => simp [List.eraseIdx]
    | succ j => simpa [List.eraseIdx] using ih (by simpa using h)

theorem Ready_after_write {st : StorageState} {d d' : StorageData}
    (h : Ready st d) (hv : StorageService.validateDataStructureTyped d' = true) :
    Ready { st with file := some (StorageService.stamp d' st.now) }
      (StorageService.stamp d' st.now) := by
  obtain ⟨hf, _, hl, hm⟩ := h
  exact ⟨rfl, by rw [stamp_validate]; exact hv, hl, hm⟩

/-- C7: from a ready state, a successful `createDebt` makes `getAllDebts`
one entry longer, a successful `deleteDebt` makes it one entry shorter,
and (when the id occurs at most once, as the document invariant guarantees)
deleting the same id a second time fails with the not-found error and
leaves the state unchanged. -/
theorem count_invariant_spec (st : StorageState) (d : StorageData)
    (h : Ready st d) :
    (∀ f e st', DebtService.createDebt f st = (Except.ok e, st') →
      ∃ l', DebtService.getAllDebts st' = (Except.ok l', st') ∧
        l'.length = d.debts.length + 1) ∧
    (∀ id st', DebtService.deleteDebt id st = (Except.ok (), st') →
      ∃ l', DebtService.getAllDebts st' = (Except.ok l', st') ∧
        l'.length + 1 = d.debts.length) ∧
    (∀ id st', d.debts.countP (fun e => e.id == id) ≤ 1 →
      DebtService.deleteDebt id st = (Except.ok (), st') →
      DebtService.deleteDebt id st' = (Except.error (StorageErr.notFound id), st')) := by
  obtain ⟨hf, hv, hl, hm⟩ := h
  refine ⟨?_, ?_, ?_⟩
  · intro f e st' hrun
    simp only [DebtService.createDebt] at hrun
    split at hrun
    case isFalse => simp at hrun
    case isTrue =>
      rw [addDebt_ready ⟨hf, hv, hl, hm⟩] at hrun
      split at hrun
      case isFalse => simp at hrun
      case isTrue hnd =>
        simp only [Prod.mk.injEq, Except.ok.injEq] at hrun
        obtain ⟨rfl, rfl⟩ := hrun
        have hv2 : StorageService.validateDataStructureTyped
            { d with debts := d.debts ++
              [StorageService.mkDebt f (StorageService.generateDebtId st) st.now] } = true := by
          simp only [StorageService.validateDataStructureTyped] at hv ⊢
          simp [List.all_append, hv, hnd]
        refine ⟨_, getAllDebts_ready (Ready_after_write ⟨hf, hv, hl, hm⟩ hv2), ?_⟩
        simp [StorageService.stamp]
  · intro id st' hrun
    simp only [DebtService.deleteDebt] at hrun
    cases hidx : findIndex? (fun debt => debt.id == id) d.debts with
    | none =>
      rw [deleteDebt_ready_notFound ⟨hf, hv, hl, hm⟩ hidx] at hrun
      simp at hrun
    | some idx =>
      rw [deleteDebt_ready_found ⟨hf, hv, hl, hm⟩ hidx] at hrun
      simp only [Prod.mk.injEq] at hrun
      obtain ⟨-, rfl⟩ := hrun
      have hv2 : StorageService.validateDataStructureTyped
          { d with debts := d.debts.eraseIdx idx } = true := by
        simp only [StorageService.validateDataStructureTyped] at hv ⊢
        exact all_eraseIdx hv
      refine ⟨_, getAllDebts_ready (Ready_after_write ⟨hf, hv, hl, hm⟩ hv2), ?_⟩
      obtain ⟨a, ha, -⟩ := findIndex?_some hidx
      simpa [StorageService.stamp] using eraseIdx_length_succ (get?_some_lt ha)
  · intro id st' hcount hrun
    simp only [DebtService.deleteDebt] at hrun ⊢
    cases hidx : findIndex? (fun debt => debt.id == id) d.debts with
    | none =>
      rw [deleteDebt_ready_notFound ⟨hf, hv, hl, hm⟩ hidx] at hrun
      simp at hrun
    | some idx =>
      rw [deleteDebt_ready_found ⟨hf, hv, hl, hm⟩ hidx] at hrun
      simp only [Prod.mk.injEq] at hrun
      obtain ⟨-, rfl⟩ := hrun
      have hv2 : StorageService.validateDataStructureTyped
          { d with debts := d.debts.eraseIdx idx } = true := by
        simp only [StorageService.validateDataStructureTyped] at hv ⊢
        exact all_eraseIdx hv
      have hzero : (d.debts.eraseIdx idx).countP (fun e => e.id == id) = 0 := by
        have := countP_eraseIdx_findIndex? hidx
        omega
      have hnone : findIndex? (fun debt => debt.id == id)
          (StorageService.stamp { d with debts := d.debts.eraseIdx idx } st.now).debts = none := by
        rw [findIndex?_eq_none_iff]
        intro a ha
        have := List.countP_eq_zero.mp hzero a (by simpa [StorageService.stamp] using ha)
        simpa using this
      exact deleteDebt_ready_notFound (Ready_after_write ⟨hf, hv, hl, hm⟩ hv2) hnone

/-- The document left behind by deleting the only entry of `sampleDoc`. -/
def emptiedDoc : StorageData :=
  { debts := [],
    metadata := { version := strOf "1.0.0", lastUpdated := 100, totalDebts := 0,
                  projectName := some (strOf "demo") },
    settings := sampleDoc.settings }

/-- The state left behind by deleting the only entry of `sampleSt`. -/
def emptiedSt : StorageState := { sampleSt with file := some emptiedDoc }

/-- Witness for C7: deleting `"d1"` from the concrete one-entry store
succeeds, and a second delete of the same id fails with the not-found
error, leaving the state unchanged. -/
theorem count_invariant_spec_witness :
    DebtService.deleteDebt (strOf "d1") emptiedSt =
      (Except.error (StorageErr.notFound (strOf "d1")), emptiedSt) :=
  (count_invariant_spec sampleSt sampleDoc
    ⟨rfl, by decide, rfl, rfl⟩).2.2 (strOf "d1") emptiedSt (by decide) (by decide)

theorem dropWhile_ne_nil_of_mem {α : Type} {p : α → Bool} {l : List α} {a : α}
    (ha : a ∈ l) (hpa : p a = false) : l.dropWhile p ≠ [] := by
  induction l with
  | nil => simp at ha
  | cons b l ih =>
    by_cases hpb : p b
    · rw [List.dropWhile_cons]
      rcases List.mem_cons.mp ha with rfl | hmem
      · simp_all
      · simp only [hpb, if_pos]
        exact ih hmem
    · rw [List.dropWhile_cons]
      simp [hpb]

theorem mem_dropWhile_of_neg {α : Type} {p : α → Bool} {l : List α} {a : α}
    (ha : a ∈ l) (hpa : p a = false) : a ∈ l.dropWhile p := by
  induction l with
  | nil => simp at ha
  | cons b l ih =>
    by_cases hpb : p b
    · rw [List.dropWhile_cons]
      rcases List.mem_cons.mp ha with rfl | hmem
      · simp_all
      · simp only [hpb, if_pos]
        exact ih hmem
    · simpa [List.dropWhile_cons, hpb] using ha

theorem trimL_ne_nil {s : Str} {c : Char} (hc : c.isWhitespace = false)
    (hmem : c ∈ s) : trimL s ≠ [] := by
  intro hcon
  unfold trimL at hcon
  rw [List.reverse_eq_nil_iff] at hcon
  have h1 : c ∈ s.dropWhile Char.isWhitespace := mem_dropWhile_of_neg hmem hc
  have h2 : c ∈ (s.dropWhile Char.isWhitespace).reverse := List.mem_reverse.mpr h1
  exact dropWhile_ne_nil_of_mem h2 hc hcon

theorem generateDebtId_trim_ne_nil (st : StorageState) :
    trimL (StorageService.generateDebtId st) ≠ [] :=
  trimL_ne_nil (c := 'd') (by decide)
    (by unfold StorageService.generateDebtId
        exact List.mem_append_left _ (List.mem_append_left _
          (List.mem_append_left _ (by decide))))

theorem ite_singleton_eq_nil {c : Prop} [Decidable c] {m : Str}
    (h : (if c then [m] else []) = []) : ¬c :=
  fun hc => by rw [if_pos hc] at h; cases h

theorem trimL_nil : trimL [] = [] := rfl

theorem validateDebtEntry_eq_nil_iff {t de fp : Str} {ln : Int} :
    DebtService.validateDebtEntry t de fp ln = [] ↔
      (trimL t ≠ [] ∧ trimL de ≠ [] ∧ fp ≠ [] ∧ 0 ≤ ln ∧
        t.length ≤ 100 ∧ de.length ≤ 500) := by
  unfold DebtService.validateDebtEntry
  constructor
  · intro h
    rw [List.append_eq_nil, List.append_eq_nil, List.append_eq_nil,
      List.append_eq_nil, List.append_eq_nil] at h
    obtain ⟨⟨⟨⟨⟨e1, e2⟩, e3⟩, e4⟩, e5⟩, e6⟩ := h
    have n1 := ite_singleton_eq_nil e1
    have n2 := ite_singleton_eq_nil e2
    have n3 := ite_singleton_eq_nil e3
    have n4 := ite_singleton_eq_nil e4
    have n5 := ite_singleton_eq_nil e5
    have n6 := ite_singleton_eq_nil e6
    simp only [Bool.or_eq_true, beq_iff_eq, not_or] at n1 n2 n3
    simp only [Bool.and_eq_true, Bool.not_eq_true', beq_eq_false_iff_ne, ne_eq,
      decide_eq_true_eq, not_and, not_lt] at n5 n6
    refine ⟨n1.2, n2.2, n3, by omega, ?_, ?_⟩
    · by_cases ht : t = []
      · subst ht; simp
      · exact n5 ht
    · by_cases hd : de = []
      · subst hd; simp
      · exact n6 hd
  · rintro ⟨h1, h2, h3, h4, h5, h6⟩
    have c1 : ¬((t == [] || trimL t == []) = true) := by
      simp only [Bool.or_eq_true, beq_iff_eq, not_or]
      exact ⟨fun ht => h1 (by subst ht; rfl), h1⟩
    have c2 : ¬((de == [] || trimL de == []) = true) := by
      simp only [Bool.or_eq_true, beq_iff_eq, not_or]
      exact ⟨fun hd => h2 (by subst hd; rfl), h2⟩
    have c3 : ¬((fp == []) = true) := by simpa using h3
    have c4 : ¬(ln < 0) := by omega
    have c5 : ¬((!(t == []) && decide (100 < t.length)) = true) := by
      simp only [Bool.and_eq_true, Bool.not_eq_true', beq_eq_false_iff_ne, ne_eq,
        decide_eq_true_eq, not_and, not_lt]
      intro _
      exact h5
    have c6 : ¬((!(de == []) && decide (500 < de.length)) = true) := by
      simp only [Bool.and_eq_true, Bool.not_eq_true', beq_eq_false_iff_ne, ne_eq,
        decide_eq_true_eq, not_and, not_lt]
      intro _
      exact h6
    rw [if_neg c1, if_neg c2, if_neg c3, if_neg c4, if_neg c5, if_neg c6]
    rfl

theorem validateDebtStructureTyped_mkDebt_iff (st : StorageState) (f : DebtFields) :
    StorageService.validateDebtStructureTyped
        (StorageService.mkDebt f (StorageService.generateDebtId st) st.now) = true ↔
      (trimL f.title ≠ [] ∧ trimL f.filePath ≠ [] ∧ 1 ≤ f.lineNumber) := by
  have hg := generateDebtId_trim_ne_nil st
  simp only [StorageService.validateDebtStructureTyped, StorageService.mkDebt,
    Bool.and_eq_true, Bool.not_eq_true', beq_eq_false_iff_ne, ne_eq,
    decide_eq_true_eq]
  tauto

/-- A result of the debt-creation path that is one of the two
validation-classified errors: the field-validation error from
`validateDebtEntry` or the structural-validation error raised while
persisting. -/
def ValidationFailed (r : Except StorageErr TechnicalDebt) : Prop :=
  (∃ msgs, r = Except.error (StorageErr.invalidEntry msgs)) ∨
    r = Except.error StorageErr.invalidStructure

/-- C4: from a ready state, `createDebt` fails with a validation error
exactly when the title, description, or filePath is blank, the title
exceeds 100 characters, the description exceeds 500 characters, or the
line number is below 1 (the `validateDebtEntry` gate itself only rejects
`lineNumber < 0` and an untrimmed empty `filePath`; the remaining cases
are caught by the structural validation run while persisting).  On
success the new entry's id is `debt-<timestamp>-<random-suffix>` and
`createdAt` equals `updatedAt`. -/
theorem createDebt_validation_spec (st : StorageState) (d : StorageData)
    {f : DebtFields} (h : Ready st d) :
    (ValidationFailed (DebtService.createDebt f st).fst ↔
      (trimL f.title = [] ∨ trimL f.description = [] ∨ trimL f.filePath = [] ∨
        100 < f.title.length ∨ 500 < f.description.length ∨ f.lineNumber < 1)) ∧
    (∀ e st', DebtService.createDebt f st = (Except.ok e, st') →
      e.id = strOf "debt-" ++ strOf (toString st.now) ++ strOf "-" ++ st.rand ∧
      e.createdAt = st.now ∧ e.updatedAt = st.now) ∧
    ((trimL f.title ≠ [] ∧ trimL f.description ≠ [] ∧ trimL f.filePath ≠ [] ∧
        f.title.length ≤ 100 ∧ f.description.length ≤ 500 ∧ 1 ≤ f.lineNumber) →
      ∃ e st', DebtService.createDebt f st = (Except.ok e, st')) := by
  obtain ⟨hf, hv, hl, hm⟩ := h
  by_cases hgate :
      DebtService.validateDebtEntry f.title f.description f.filePath f.lineNumber = []
  · have hconds := validateDebtEntry_eq_nil_iff.mp hgate
    have hcd0 : DebtService.createDebt f st = StorageService.addDebt f st := by
      simp [DebtService.createDebt, hgate]
    rw [addDebt_ready ⟨hf, hv, hl, hm⟩] at hcd0
    by_cases hnd : StorageService.validateDebtStructureTyped
        (StorageService.mkDebt f (StorageService.generateDebtId st) st.now) = true
    · rw [if_pos hnd] at hcd0
      have hndc := (validateDebtStructureTyped_mkDebt_iff st f).mp hnd
      refine ⟨⟨?_, ?_⟩, ?_, ?_⟩
      · intro hvf
        rcases hvf with ⟨m, hme⟩ | hme <;> rw [hcd0] at hme <;> simp at hme
      · intro hbad
        exfalso
        rcases hbad with hb | hb | hb | hb | hb | hb
        · exact hconds.1 hb
        · exact hconds.2.1 hb
        · exact hndc.2.1 hb
        · exact absurd hb (by have := hconds.2.2.2.2.1; omega)
        · exact absurd hb (by have := hconds.2.2.2.2.2; omega)
        · exact absurd hb (by have := hndc.2.2; omega)
      · intro e st' hrun
        rw [hcd0] at hrun
        simp only [Prod.mk.injEq, Except.ok.injEq] at hrun
        obtain ⟨rfl, -⟩ := hrun
        exact ⟨rfl, rfl, rfl⟩
      · intro _
        exact ⟨_, _, hcd0⟩
    · rw [if_neg hnd] at hcd0
      have hndc : ¬(trimL f.title ≠ [] ∧ trimL f.filePath ≠ [] ∧ 1 ≤ f.lineNumber) :=
        fun hc => hnd ((validateDebtStructureTyped_mkDebt_iff st f).mpr hc)
      refine ⟨⟨?_, ?_⟩, ?_, ?_⟩
      · intro _
        push_neg at hndc
        rcases Decidable.em (trimL f.filePath = []) with hfp | hfp
        · exact Or.inr (Or.inr (Or.inl hfp))
        · have hln := hndc hconds.1 hfp
          exact Or.inr (Or.inr (Or.inr (Or.inr (Or.inr (by omega)))))
      · intro _
        exact Or.inr (by rw [hcd0])
      · intro e st' hrun
        rw [hcd0] at hrun
        simp at hrun
      · intro hok
        exact absurd ⟨hok.1, hok.2.2.1, hok.2.2.2.2.2⟩ hndc
  · have hcd0 : DebtService.createDebt f st =
        (Except.error (StorageErr.invalidEntry
          (DebtService.validateDebtEntry f.title f.description f.filePath f.lineNumber)), st) := by
      simp [DebtService.createDebt, hgate]
    have hbad : trimL f.title = [] ∨ trimL f.description = [] ∨ trimL f.filePath = [] ∨
        100 < f.title.length ∨ 500 < f.description.length ∨ f.lineNumber < 1 := by
      have hni := (not_iff_not.mpr validateDebtEntry_eq_nil_iff).mp hgate
      push_neg at hni
      by_cases h1 : trimL f.title = []
      · exact Or.inl h1
      by_cases h2 : trimL f.description = []
      · exact Or.inr (Or.inl h2)
      by_cases h3 : f.filePath = []
      · exact Or.inr (Or.inr (Or.inl (by rw [h3]; exact trimL_nil)))
      by_cases h4 : (0 : Int) ≤ f.lineNumber
      · by_cases h5 : f.title.length ≤ 100
        · exact Or.inr (Or.inr (Or.inr (Or.inr (Or.inl (hni h1 h2 h3 h4 h5)))))
        · exact Or.inr (Or.inr (Or.inr (Or.inl (by omega))))
      · exact Or.inr (Or.inr (Or.inr (Or.inr (Or.inr (by omega)))))
    refine ⟨⟨fun _ => hbad, fun _ => Or.inl ⟨_, by rw [hcd0]⟩⟩, ?_, ?_⟩
    · intro e st' hrun
      rw [hcd0] at hrun
      simp at hrun
    · intro hok
      exfalso
      apply hgate
      exact validateDebtEntry_eq_nil_iff.mpr
        ⟨hok.1, hok.2.1, fun hh => hok.2.2.1 (by rw [hh]; exact trimL_nil), by omega,
          hok.2.2.2.1, hok.2.2.2.2.1⟩

/-- Fresh caller fields for a valid new entry, used as concrete test data. -/
def newFields : DebtFields :=
  { title := strOf "New debt", description := strOf "Something to fix",
    filePath := strOf "src/b.ts", lineNumber := 3, severity := DebtSeverity.medium,
    category := DebtCategory.testing, status := DebtStatus.Open,
    priority := DebtPriority.high, tags := [] }

/-- Witness for C4: creating a valid entry from the concrete ready state
succeeds. -/
theorem createDebt_validation_spec_witness :
    ∃ e st', DebtService.createDebt newFields sampleSt = (Except.ok e, st') :=
  (createDebt_validation_spec sampleSt sampleDoc
      ⟨rfl, by decide, rfl, rfl⟩).2.2
    (by refine ⟨?_, ?_, ?_, ?_, ?_, ?_⟩ <;> decide)

theorem all_set_false {α : Type} {p : α → Bool} {l : List α} {i : Nat} {a b : α}
    (hg : l.get? i = some b) (hpa : p a = false) : (l.set i a).all p = false := by
  induction l generalizing i with
  | nil => simp at hg
  | cons c l ih =>
    cases i with
    | zero => simp [List.set, List.all_cons, hpa]
    | succ j => simp [List.set, List.all_cons, ih (by simpa using hg)]

theorem get?_set_of_ne {α : Type} {l : List α} {i j : Nat} {a : α}
    (hj : j ≠ i) : (l.set i a).get? j = l.get? j := by
  induction l generalizing i j with
  | nil => simp [List.set]
  | cons c l ih =>
    cases i with
    | zero =>
      cases j with
      | zero => exact absurd rfl hj
      | succ k => simp [List.set]
    | succ i2 =>
      cases j with
      | zero => simp [List.set]
      | succ k => simpa [List.set] using ih (fun hh => hj (by rw [hh]))

theorem validateDebtStructureTyped_statusPatch (ns : DebtStatus) (now : Nat)
    {e : TechnicalDebt}
    (he : StorageService.validateDebtStructureTyped e = true) :
    StorageService.validateDebtStructureTyped
      (StorageService.applyPatch e { status := some ns } now) = true := by
  simpa [StorageService.validateDebtStructureTyped, StorageService.applyPatch]
    using he

/-- C5: for an entry present in a ready store, `transitionStatus` fails with
the invalid-transition error exactly when the target status is not in the
whitelist row of the entry's current status; otherwise it succeeds,
returning the entry with the new status and a bumped `updatedAt`, and
persists that entry at its position in the document.  The whitelist rows
are exactly open→{in-progress,review,resolved,closed},
in-progress→{review,resolved,open}, review→{resolved,in-progress,open},
resolved→{closed,open}, closed→{open}. -/
theorem transition_whitelist_spec (st : StorageState) (d : StorageData)
    {id : Str} {e : TechnicalDebt} (ns : DebtStatus) (h : Ready st d)
    (hfind : d.debts.find? (fun x => x.id == id) = some e) :
    (DebtService.allowedStatusTransitions DebtStatus.Open =
        [DebtStatus.inProgress, DebtStatus.review, DebtStatus.resolved,
          DebtStatus.closed] ∧
      DebtService.allowedStatusTransitions DebtStatus.inProgress =
        [DebtStatus.review, DebtStatus.resolved, DebtStatus.Open] ∧
      DebtService.allowedStatusTransitions DebtStatus.review =
        [DebtStatus.resolved, DebtStatus.inProgress, DebtStatus.Open] ∧
      DebtService.allowedStatusTransitions DebtStatus.resolved =
        [DebtStatus.closed, DebtStatus.Open] ∧
      DebtService.allowedStatusTransitions DebtStatus.closed = [DebtStatus.Open]) ∧
    (ns ∉ DebtService.allowedStatusTransitions e.status →
      DebtService.transitionStatus id ns st =
        (Except.error (StorageErr.invalidTransition e.status ns), st)) ∧
    (ns ∈ DebtService.allowedStatusTransitions e.status →
      ∃ i st', findIndex? (fun x => x.id == id) d.debts = some i ∧
        DebtService.transitionStatus id ns st =
          (Except.ok { e with status := ns, updatedAt := st.now }, st') ∧
        ∃ d', st'.file = some d' ∧
          d'.debts = d.debts.set i { e with status := ns, updatedAt := st.now }) := by
  obtain ⟨hf, hv, hl, hm⟩ := h
  refine ⟨⟨rfl, rfl, rfl, rfl, rfl⟩, ?_, ?_⟩
  · intro hns
    have hcont : (DebtService.allowedStatusTransitions e.status).contains ns = false := by
      simpa using hns
    simp only [DebtService.transitionStatus, getDebt_ready ⟨hf, hv, hl, hm⟩, hfind]
    rw [if_neg (by simpa using hns)]
  · intro hns
    have hcont : (DebtService.allowedStatusTransitions e.status).contains ns = true := by
      simpa using hns
    obtain ⟨i, hi, hg, -⟩ := find?_some_findIndex? hfind
    have he : StorageService.validateDebtStructureTyped e = true :=
      List.all_eq_true.mp hv e (List.mem_of_find?_eq_some hfind)
    have hok := validateDebtStructureTyped_statusPatch ns st.now he
    have hupd := storage_updateDebt_found (p := { status := some ns })
      ⟨hf, hv, hl, hm⟩ hi hg hok
    have happ : StorageService.applyPatch e { status := some ns } st.now =
        { e with status := ns, updatedAt := st.now } := rfl
    rw [happ] at hupd
    refine ⟨i, (StorageService.updateDebt id { status := some ns } st).snd, hi, ?_, ?_⟩
    · simp only [DebtService.transitionStatus, getDebt_ready ⟨hf, hv, hl, hm⟩, hfind]
      rw [if_pos hcont, hupd]
    · rw [hupd]
      exact ⟨_, rfl, rfl⟩

/-- Witness for C5: for the concrete store whose only entry has status
`closed`, transitioning to `review` fails with the invalid-transition
error, and transitioning to `open` succeeds and persists. -/
theorem transition_whitelist_spec_witness :
    DebtService.transitionStatus (strOf "d1") DebtStatus.review sampleSt =
      (Except.error (StorageErr.invalidTransition DebtStatus.closed DebtStatus.review),
        sampleSt) ∧
    (∃ i st', findIndex? (fun x => x.id == strOf "d1") sampleDoc.debts = some i ∧
      DebtService.transitionStatus (strOf "d1") DebtStatus.Open sampleSt =
        (Except.ok { closedEntry with status := DebtStatus.Open, updatedAt := 100 }, st') ∧
      ∃ d', st'.file = some d' ∧
        d'.debts = sampleDoc.debts.set i
          { closedEntry with status := DebtStatus.Open, updatedAt := 100 }) := by
  constructor
  · exact (transition_whitelist_spec sampleSt sampleDoc DebtStatus.review
      ⟨rfl, by decide, rfl, rfl⟩
      (show sampleDoc.debts.find? (fun x => x.id == strOf "d1") = some closedEntry
        by decide)).2.1 (by decide)
  · exact (transition_whitelist_spec sampleSt sampleDoc DebtStatus.Open
      ⟨rfl, by decide, rfl, rfl⟩
      (show sampleDoc.debts.find? (fun x => x.id == strOf "d1") = some closedEntry
        by decide)).2.2 (by decide)

/-- The update applied in the C2 counterexample: a direct jump of the
`closed` entry to `review`, which the whitelist forbids. -/
def reviewPatch : DebtPatch := { status := some DebtStatus.review }

/-- The entry produced by silently applying `reviewPatch` to `closedEntry`. -/
def reviewedEntry : TechnicalDebt :=
  { closedEntry with status := DebtStatus.review, updatedAt := 100 }

/-- The document produced by persisting `reviewedEntry`. -/
def reviewedDoc : StorageData :=
  { debts := [reviewedEntry],
    metadata := { version := strOf "1.0.0", lastUpdated := 100, totalDebts := 1,
                  projectName := some (strOf "demo") },
    settings := sampleDoc.settings }

/-- Counterexample to C2: the store's only entry has status `closed` and the
partial update requests status `review`, a transition the whitelist forbids;
yet `DebtService.updateDebt` succeeds and persists the new status instead of
failing with an invalid-transition error. -/
theorem updateDebt_skips_whitelist_cex :
    DebtService.updateDebt (strOf "d1") reviewPatch sampleSt =
      (Except.ok reviewedEntry, { sampleSt with file := some reviewedDoc }) ∧
    DebtStatus.review ∉
      DebtService.allowedStatusTransitions DebtStatus.closed ∧
    closedEntry.status = DebtStatus.closed := by
  decide

/-- C2 (amended): `DebtService.updateDebt` never consults the transition
whitelist: whenever it succeeds, the status found in the partial update is
applied and persisted as-is, whether or not the whitelist allows the jump
from the entry's current status. -/
theorem updateDebt_applies_any_status (st : StorageState) (d : StorageData)
    {id : Str} {p : DebtPatch} {e e' : TechnicalDebt} {st' : StorageState}
    (h : Ready st d)
    (hfind : d.debts.find? (fun x => x.id == id) = some e)
    (hrun : DebtService.updateDebt id p st = (Except.ok e', st')) :
    e'.status = p.status.getD e.status ∧
    ∃ i d', findIndex? (fun x => x.id == id) d.debts = some i ∧
      st'.file = some d' ∧ d'.debts = d.debts.set i e' := by
  obtain ⟨hf, hv, hl, hm⟩ := h
  simp only [DebtService.updateDebt, getDebt_ready ⟨hf, hv, hl, hm⟩, hfind] at hrun
  split at hrun
  case isFalse => simp at hrun
  case isTrue =>
    obtain ⟨i, hi, hg, -⟩ := find?_some_findIndex? hfind
    by_cases hok : StorageService.validateDebtStructureTyped
        (StorageService.applyPatch e p st.now) = true
    · rw [storage_updateDebt_found ⟨hf, hv, hl, hm⟩ hi hg hok] at hrun
      simp only [Prod.mk.injEq, Except.ok.injEq] at hrun
      obtain ⟨rfl, rfl⟩ := hrun
      exact ⟨rfl, i, _, hi, rfl, rfl⟩
    · exfalso
      have hset : StorageService.validateDataStructureTyped
          { d with debts := d.debts.set i (StorageService.applyPatch e p st.now) } = false := by
        simp only [StorageService.validateDataStructureTyped]
        exact all_set_false hg (by simpa using hok)
      rw [storage_updateDebt_found_invalid ⟨hf, hv, hl, hm⟩ hi hg hset] at hrun
      simp at hrun

/-- Witness for C2 (amended): the disallowed `closed → review` jump of the
counterexample is indeed applied and persisted by a successful update. -/
theorem updateDebt_applies_any_status_witness :
    reviewedEntry.status = reviewPatch.status.getD closedEntry.status ∧
    ∃ i d', findIndex? (fun x => x.id == strOf "d1") sampleDoc.debts = some i ∧
      ({ sampleSt with file := some reviewedDoc } : StorageState).file = some d' ∧
      d'.debts = sampleDoc.debts.set i reviewedEntry :=
  updateDebt_applies_any_status sampleSt sampleDoc ⟨rfl, by decide, rfl, rfl⟩
    (show sampleDoc.debts.find? (fun x => x.id == strOf "d1") = some closedEntry
      by decide)
    (show DebtService.updateDebt (strOf "d1") reviewPatch sampleSt =
        (Except.ok reviewedEntry, { sampleSt with file := some reviewedDoc })
      by decide)

/-- C10: a successful `StorageService.updateDebt` replaces the located entry
in place: the result keeps the entry's `id` and `createdAt`, the document
after the update is the old document with only position `i` overwritten
(same length, every other index unchanged), and the entry order is
preserved. -/
theorem updateDebt_frame_spec (st : StorageState) (d : StorageData)
    {id : Str} {p : DebtPatch} {e' : TechnicalDebt} {st' : StorageState}
    (h : Ready st d)
    (hrun : StorageService.updateDebt id p st = (Except.ok e', st')) :
    ∃ i e, findIndex? (fun x => x.id == id) d.debts = some i ∧
      d.debts.get? i = some e ∧
      e'.id = e.id ∧ e'.createdAt = e.createdAt ∧
      ∃ d', st'.file = some d' ∧ d'.debts = d.debts.set i e' ∧
        d'.debts.length = d.debts.length ∧
        ∀ j, j ≠ i → d'.debts.get? j = d.debts.get? j := by
  obtain ⟨hf, hv, hl, hm⟩ := h
  cases hidx : findIndex? (fun debt => debt.id == id) d.debts with
  | none =>
    rw [storage_updateDebt_notFound ⟨hf, hv, hl, hm⟩ hidx] at hrun
    simp at hrun
  | some i =>
    obtain ⟨e, hg, -⟩ := findIndex?_some hidx
    by_cases hok : StorageService.validateDebtStructureTyped
        (StorageService.applyPatch e p st.now) = true
    · rw [storage_updateDebt_found ⟨hf, hv, hl, hm⟩ hidx hg hok] at hrun
      simp only [Prod.mk.injEq, Except.ok.injEq] at hrun
      obtain ⟨rfl, rfl⟩ := hrun
      refine ⟨i, e, rfl, hg, rfl, rfl, ?_⟩
      refine ⟨_, rfl, rfl, by simp [StorageService.stamp], ?_⟩
      intro j hj
      simpa [StorageService.stamp] using
        get?_set_of_ne (a := StorageService.applyPatch e p st.now) hj
    · exfalso
      have hset : StorageService.validateDataStructureTyped
          { d with debts := d.debts.set i (StorageService.applyPatch e p st.now) } = false := by
        simp only [StorageService.validateDataStructureTyped]
        exact all_set_false hg (by simpa using hok)
      rw [storage_updateDebt_found_invalid ⟨hf, hv, hl, hm⟩ hidx hg hset] at hrun
      simp at hrun

/-- Witness for C10: the frame property applied to the concrete update of
the counterexample store. -/
theorem updateDebt_frame_spec_witness :
    ∃ i e, findIndex? (fun x => x.id == strOf "d1") sampleDoc.debts = some i ∧
      sampleDoc.debts.get? i = some e ∧
      reviewedEntry.id = e.id ∧ reviewedEntry.createdAt = e.createdAt ∧
      ∃ d', ({ sampleSt with file := some reviewedDoc } : StorageState).file = some d' ∧
        d'.debts = sampleDoc.debts.set i reviewedEntry ∧
        d'.debts.length = sampleDoc.debts.length ∧
        ∀ j, j ≠ i → d'.debts.get? j = sampleDoc.debts.get? j :=
  updateDebt_frame_spec sampleSt sampleDoc ⟨rfl, by decide, rfl, rfl⟩
    (show StorageService.updateDebt (strOf "d1") reviewPatch sampleSt =
        (Except.ok reviewedEntry, { sampleSt with file := some reviewedDoc })
      by decide)

/-- A JSON value, as produced by `JSON.parse`: the raw data that
`validateDataStructure` inspects before any typing is known. -/
inductive JVal where
  | str (s : Str)
  | num (q : Rat)
  | jbool (b : Bool)
  | null
  | arr (elems : List JVal)
  | obj (fields : List (Str × JVal))

/-- Property lookup on an object's field list (first binding wins). -/
def lookupField (fs : List (Str × JVal)) (k : Str) : Option JVal :=
  (fs.find? (fun kv => kv.fst == k)).map (fun kv => kv.snd)

/-- JavaScript property access `data.k`: `undefined` (here `none`) unless
the value is an object with that key. -/
def getField : JVal → Str → Option JVal
  | .obj fs, k => lookupField fs k
  | _, _ => none

/-- JavaScript truthiness of a parsed JSON value (`!data` tests). -/
def truthy : JVal → Bool
  | .str s => !(s == [])
  | .num q => !(q == 0)
  | .jbool b => b
  | .null => false
  | .arr _ => true
  | .obj _ => true

/-- JavaScript `typeof x === 'object'`: true for objects, arrays and null. -/
def typeofObject : JVal → Bool
  | .obj _ => true
  | .arr _ => true
  | .null => true
  | _ => false

/-- The `requiredFields` list of `StorageService.validateDebtStructure`. -/
def requiredDebtFields : List Str :=
  [strOf "id", strOf "title", strOf "description", strOf "filePath",
    strOf "lineNumber", strOf "severity", strOf "category", strOf "status",
    strOf "priority"]

/-- The check `typeof x === 'string' && x.trim() !== ''` applied to a
property that may be absent. -/
def strFieldOK (o : Option JVal) : Bool :=
  match o with
  | some (.str s) => !(trimL s == [])
  | _ => false

/-- The check `typeof x === 'number' && x >= 1` applied to a property that
may be absent (the source writes `lineNumber < 1 → reject`). -/
def numFieldOK (o : Option JVal) : Bool :=
  match o with
  | some (.num q) => decide (1 ≤ q)
  | _ => false

/-- The check `x && typeof x === 'object'` applied to a property that may
be absent (used for `metadata` and `settings`). -/
def objFieldOK (o : Option JVal) : Bool :=
  match o with
  | some m => truthy m && typeofObject m
  | none => false

/-- `StorageService.validateDebtStructure` on raw JSON: all nine required
fields must be present; `id`, `title` and `filePath` must be non-blank
strings; `lineNumber` must be a number `>= 1`.  (`description` is only
required to be present — its type and content are never checked — and
`lineNumber` is not required to be an integer.)  A non-object entry makes
the `in` operator throw, which the read path surfaces as a failure, so it
is modelled as rejection. -/
def validateDebtStructure (debt : JVal) : Bool :=
  match debt with
  | .obj fs =>
    requiredDebtFields.all (fun k => (lookupField fs k).isSome) &&
    strFieldOK (lookupField fs (strOf "id")) &&
    strFieldOK (lookupField fs (strOf "title")) &&
    strFieldOK (lookupField fs (strOf "filePath")) &&
    numFieldOK (lookupField fs (strOf "lineNumber"))
  | _ => false

/-- `StorageService.validateDataStructure` on raw JSON: the document must
be a truthy object, `debts` must be an array, `metadata` and `settings`
must be truthy objects, and every entry must pass
`validateDebtStructure`. -/
def validateDataStructure (data : JVal) : Bool :=
  (truthy data && typeofObject data) &&
  (match getField data (strOf "debts") with
   | some (.arr debts) =>
     objFieldOK (getField data (strOf "metadata")) &&
     objFieldOK (getField data (strOf "settings")) &&
     debts.all validateDebtStructure
   | _ => false)

/-- Modelled from the spec's wording for the amended claim: what the spec
(as corrected) requires of a single raw entry — nine required fields
present; `id`, `title`, `filePath` non-blank strings; `lineNumber` a
number at least 1; nothing further about `description`. -/
def specEntryOK (e : JVal) : Prop :=
  ∃ fs, e = JVal.obj fs ∧
    (∀ k ∈ requiredDebtFields, (lookupField fs k).isSome = true) ∧
    (∃ s, lookupField fs (strOf "id") = some (JVal.str s) ∧ trimL s ≠ []) ∧
    (∃ s, lookupField fs (strOf "title") = some (JVal.str s) ∧ trimL s ≠ []) ∧
    (∃ s, lookupField fs (strOf "filePath") = some (JVal.str s) ∧ trimL s ≠ []) ∧
    (∃ q, lookupField fs (strOf "lineNumber") = some (JVal.num q) ∧ 1 ≤ q)

/-- Modelled from the spec's wording for the amended claim: what the spec
(as corrected) requires of the raw document. -/
def specDocOK (v : JVal) : Prop :=
  truthy v = true ∧ typeofObject v = true ∧
  ∃ debts, getField v (strOf "debts") = some (JVal.arr debts) ∧
    (∃ m, getField v (strOf "metadata") = some m ∧
      truthy m = true ∧ typeofObject m = true) ∧
    (∃ w, getField v (strOf "settings") = some w ∧
      truthy w = true ∧ typeofObject w = true) ∧
    ∀ e ∈ debts, specEntryOK e

theorem strFieldOK_iff {o : Option JVal} :
    strFieldOK o = true ↔ ∃ s, o = some (JVal.str s) ∧ trimL s ≠ [] := by
  rcases o with - | v
  · simp [strFieldOK]
  · cases v <;> simp [strFieldOK]

theorem numFieldOK_iff {o : Option JVal} :
    numFieldOK o = true ↔ ∃ q, o = some (JVal.num q) ∧ 1 ≤ q := by
  rcases o with - | v
  · simp [numFieldOK]
  · cases v <;> simp [numFieldOK]

theorem objFieldOK_iff {o : Option JVal} :
    objFieldOK o = true ↔
      ∃ m, o = some m ∧ truthy m = true ∧ typeofObject m = true := by
  rcases o with - | v <;> simp [objFieldOK]

theorem validateDebtStructure_iff {e : JVal} :
    validateDebtStructure e = true ↔ specEntryOK e := by
  cases e with
  | obj fs =>
    simp only [validateDebtStructure, Bool.and_eq_true, List.all_eq_true,
      strFieldOK_iff, numFieldOK_iff]
    constructor
    · rintro ⟨⟨⟨⟨hreq, hid⟩, htl⟩, hfp⟩, hln⟩
      exact ⟨fs, rfl, hreq, hid, htl, hfp, hln⟩
    · rintro ⟨fs2, heq, hreq, hid, htl, hfp, hln⟩
      cases heq
      exact ⟨⟨⟨⟨hreq, hid⟩, htl⟩, hfp⟩, hln⟩
  | str s =>
    simp only [specEntryOK]
    constructor
    · intro h
      exact Bool.noConfusion h
    · rintro ⟨fs2, heq, -⟩
      cases heq
  | num q =>
    simp only [specEntryOK]
    constructor
    · intro h
      exact Bool.noConfusion h
    · rintro ⟨fs2, heq, -⟩
      cases heq
  | jbool b =>
    simp only [specEntryOK]
    constructor
    · intro h
      exact Bool.noConfusion h
    · rintro ⟨fs2, heq, -⟩
      cases heq
  | null =>
    simp only [specEntryOK]
    constructor
    · intro h
      exact Bool.noConfusion h
    · rintro ⟨fs2, heq, -⟩
      cases heq
  | arr l =>
    simp only [specEntryOK]
    constructor
    · intro h
      exact Bool.noConfusion h
    · rintro ⟨fs2, heq, -⟩
      cases heq

/-- C8 (amended): the structural validator, run on both the read and the
write path, accepts a raw document exactly when the document is a truthy
object, `debts` is an array, `metadata` and `settings` are truthy
objects, and every entry has the nine required fields present, `id`,
`title`, `filePath` non-blank strings, and `lineNumber` a number at
least 1.  In particular `description` only has to be present (an empty or
non-string description is accepted) and `lineNumber` need not be an
integer; accepted documents therefore have non-empty `title` and
`filePath` for every entry, but not necessarily a non-empty
`description`. -/
theorem structural_validation_amended (v : JVal) :
    validateDataStructure v = true ↔ specDocOK v := by
  unfold validateDataStructure specDocOK
  cases hdeb : getField v (strOf "debts") with
  | none =>
    simp only [hdeb, Bool.and_eq_true]
    constructor
    · rintro ⟨-, h⟩
      cases h
    · rintro ⟨-, -, debts, h, -⟩
      cases h
  | some w =>
    cases w with
    | arr debts =>
      simp only [hdeb, Bool.and_eq_true, objFieldOK_iff, List.all_eq_true,
        validateDebtStructure_iff]
      constructor
      · rintro ⟨⟨h1, h2⟩, ⟨⟨m, hm, hm1, hm2⟩, ⟨w2, hw, hw1, hw2⟩⟩, hall⟩
        exact ⟨h1, h2, debts, rfl, ⟨m, hm, hm1, hm2⟩, ⟨w2, hw, hw1, hw2⟩, hall⟩
      · rintro ⟨h1, h2, debts2, heq, ⟨m, hm, hm1, hm2⟩, ⟨w2, hw, hw1, hw2⟩, hall⟩
        cases heq
        exact ⟨⟨h1, h2⟩, ⟨⟨m, hm, hm1, hm2⟩, ⟨w2, hw, hw1, hw2⟩⟩, hall⟩
    | str s =>
      simp only [hdeb, Bool.and_eq_true]
      constructor
      · rintro ⟨-, h⟩
        cases h
      · rintro ⟨-, -, debts, h, -⟩
        cases h
    | num q =>
      simp only [hdeb, Bool.and_eq_true]
      constructor
      · rintro ⟨-, h⟩
        cases h
      · rintro ⟨-, -, debts, h, -⟩
        cases h
    | jbool b =>
      simp only [hdeb, Bool.and_eq_true]
      constructor
      · rintro ⟨-, h⟩
        cases h
      · rintro ⟨-, -, debts, h, -⟩
        cases h
    | null =>
      simp only [hdeb, Bool.and_eq_true]
      constructor
      · rintro ⟨-, h⟩
        cases h
      · rintro ⟨-, -, debts, h, -⟩
        cases h
    | obj fs =>
      simp only [hdeb, Bool.and_eq_true]
      constructor
      · rintro ⟨-, h⟩
        cases h
      · rintro ⟨-, -, debts, h, -⟩
        cases h

/-- A raw entry whose `description` is the empty string and whose
`lineNumber` is the non-integer 3/2, with every other field well formed. -/
def looseEntry : JVal :=
  JVal.obj
    [(strOf "id", JVal.str (strOf "e1")),
     (strOf "title", JVal.str (strOf "T")),
     (strOf "description", JVal.str []),
     (strOf "filePath", JVal.str (strOf "a.ts")),
     (strOf "lineNumber", JVal.num (mkRat 3 2)),
     (strOf "severity", JVal.str (strOf "low")),
     (strOf "category", JVal.str (strOf "code-quality")),
     (strOf "status", JVal.str (strOf "open")),
     (strOf "priority", JVal.str (strOf "normal"))]

/-- A raw document holding `looseEntry`. -/
def looseDoc : JVal :=
  JVal.obj
    [(strOf "debts", JVal.arr [looseEntry]),
     (strOf "metadata", JVal.obj []),
     (strOf "settings", JVal.obj [])]

/-- Counterexample to C8 as stated: the validator accepts a document whose
only entry has an empty-string `description` and a non-integer
`lineNumber` (3/2), so it does not reject descriptions that are not
non-empty strings, nor line numbers that are not positive integers. -/
theorem structural_validation_cex :
    validateDataStructure looseDoc = true ∧
    getField looseEntry (strOf "description") = some (JVal.str []) ∧
    getField looseEntry (strOf "lineNumber") = some (JVal.num (mkRat 3 2)) ∧
    (mkRat 3 2).den = 2 := by
  refine ⟨by decide, rfl, rfl, by decide⟩

/-- The content of the backing file as found on disk: either bytes that do
not parse as JSON, or a parsed JSON value. -/
inductive RawFile where
  | unparseable (raw : Str)
  | parsed (v : JVal)

/-- The state operated on by the raw (untyped) read path: the file as found
on disk, the timestamped backup copies created so far, the lock marker,
the `isLocked` flag, and the clock. -/
structure RawState where
  file : Option RawFile
  backups : List (Nat × RawFile)
  lockMarker : Option Nat
  isLocked : Bool
  now : Nat

/-- `StorageService.acquireLock`, acting on the raw state. -/
def rawAcquireLock (st : RawState) : Except StorageErr RawState :=
  if st.isLocked then .error .alreadyLocked
  else
    match st.lockMarker with
    | some t =>
        if st.now - t < 30000 then .error .lockContention
        else .ok { st with lockMarker := some st.now, isLocked := true }
    | none => .ok { st with lockMarker := some st.now, isLocked := true }

/-- `StorageService.releaseLock`, acting on the raw state. -/
def rawReleaseLock (st : RawState) : RawState :=
  if st.isLocked then { st with lockMarker := none, isLocked := false } else st

/-- `StorageService.readData` on the raw file as found on disk: acquire the
lock, fail if the file is absent, fail if `JSON.parse` fails, fail if
`validateDataStructure` fails, always release the lock.  No branch touches
the backups: `readData` never calls `backupCorruptedFile`. -/
def readDataRaw (st : RawState) : Except StorageErr JVal × RawState :=
  match rawAcquireLock st with
  | .error e => (Except.error e, rawReleaseLock st)
  | .ok st1 =>
    match st1.file with
    | none => (Except.error StorageErr.fileNotFound, rawReleaseLock st1)
    | some (.unparseable _) =>
        (Except.error StorageErr.parseFailure, rawReleaseLock st1)
    | some (.parsed v) =>
        if validateDataStructure v then (Except.ok v, rawReleaseLock st1)
        else (Except.error StorageErr.invalidStructure, rawReleaseLock st1)

/-- `StorageService.backupCorruptedFile`: copy the current file content to a
timestamped backup sibling (`debts.json.backup.<now>`). -/
def backupCorruptedFile (st : RawState) : RawState :=
  match st.file with
  | some c => { st with backups := (st.now, c) :: st.backups }
  | none => st

/-- `StorageService.validateStorageFile` (called from `initialize`, not from
`readData`): parse and validate the existing file; on failure back up the
corrupted file and raise the `corrupted` error. -/
def validateStorageFile (st : RawState) : Except StorageErr Unit × RawState :=
  match st.file with
  | none => (Except.ok (), st)
  | some (.unparseable _) =>
      (Except.error StorageErr.corrupted, backupCorruptedFile st)
  | some (.parsed v) =>
      if validateDataStructure v then (Except.ok (), st)
      else (Except.error StorageErr.corrupted, backupCorruptedFile st)

/-- A state whose backing file holds the bytes `"invalid json content"`,
which do not parse as JSON. -/
def corruptSt : RawState :=
  { file := some (RawFile.unparseable (strOf "invalid json content")),
    backups := [], lockMarker := none, isLocked := false, now := 7000 }

/-- C3 (code evidence): calling `readData` on an unparseable file raises
only the wrapped parse error and creates no backup — the backups list is
untouched — whereas `validateStorageFile`, which only `initialize` calls,
is the path that both backs the file up and raises the corrupted error. -/
theorem readData_corruption_no_backup :
    (readDataRaw corruptSt).fst = Except.error StorageErr.parseFailure ∧
    (readDataRaw corruptSt).snd.backups = [] ∧
    (validateStorageFile corruptSt).fst = Except.error StorageErr.corrupted ∧
    (validateStorageFile corruptSt).snd.backups =
      [(7000, RawFile.unparseable (strOf "invalid json content"))] :=
  ⟨rfl, rfl, rfl, rfl⟩

/-- `DEFAULTS.DEBT_MARKERS` from `src/constants/index.ts`. -/
def defaultDebtMarkers : List Str :=
  [strOf "TODO", strOf "FIXME", strOf "HACK", strOf "BUG", strOf "NOTE"]

/-- Uppercase a string (JavaScript `toUpperCase` on ASCII markers). -/
def toUpperL (s : Str) : Str := s.map Char.toUpper

/-- Case-insensitive prefix strip: if the input starts with the pattern
(compared via lowercasing, the `i`-flag canonicalisation for ASCII), return
the rest of the input. -/
def stripHeadCI : Str → Str → Option Str
  | [], s => some s
  | _ :: _, [] => none
  | p :: ps, c :: cs => if p.toLower == c.toLower then stripHeadCI ps cs else none

/-- The scanner builds its regex inside an ordinary template literal:
`` `(?:^|[^\w])(${markerAlternation})(?:\b)\s*[:\-]\s*(.+)$` ``
(with single backslashes in the source).  String cooking turns `\w` into
`w`, `\b` into the literal backspace character U+0008, `\s` into `s`, and
`\-` into `-`, so the regex actually compiled is
`(?:^|[^w])(TODO|FIXME|HACK|BUG|NOTE)(?:\x08)s*[:-]s*(.+)$` with flag `i`.
`cookedSStarTail` is its trailing `s*(.+)$`: a greedy run of `s`/`S`
followed by at least one character up to the end of the line. -/
def cookedSStarTail : Str → Option Str
  | [] => none
  | c :: rest =>
    if c == 's' || c == 'S' then
      match cookedSStarTail rest with
      | some g => some g
      | none => some (c :: rest)
    else some (c :: rest)

/-- The cooked pattern's `s*[:-]s*(.+)$`: a run of literal `s`, one of
`:` or `-`, then `cookedSStarTail`. -/
def cookedDelimTail : Str → Option Str
  | [] => none
  | c :: rest =>
    if c == ':' || c == '-' then cookedSStarTail rest
    else if c == 's' || c == 'S' then cookedDelimTail rest
    else none

/-- Try one marker of the cooked scanner regex at the current position: the
marker case-insensitively, then the literal backspace required by the
cooked `(?:\b)`, then `cookedDelimTail`.  Returns (captured marker text,
captured description). -/
def tryMarkerCooked (m : Str) (s : Str) : Option (Str × Str) :=
  match stripHeadCI m s with
  | none => none
  | some rest =>
    match rest with
    | c :: tail =>
        if c == '\x08' then
          (cookedDelimTail tail).map (fun g => (s.take m.length, g))
        else none
    | [] => none

/-- The alternation `(TODO|FIXME|...)`, tried in order. -/
def tryMarkersCooked (markers : List Str) (s : Str) : Option (Str × Str) :=
  markers.findSome? (fun m => tryMarkerCooked m s)

/-- The cooked `(?:^|[^w])` boundary: start of line, or a previous
character other than `w`/`W` (the class is case-insensitive under `i`). -/
def cookedBoundary : Option Char → Bool
  | none => true
  | some c => !(c == 'w' || c == 'W')

/-- Leftmost-match scan of one line with the cooked scanner regex
(`String.prototype.match` without the `g` flag). -/
def scanCookedAux (markers : List Str) : Option Char → Str → Option (Str × Str)
  | prev, [] => if cookedBoundary prev then tryMarkersCooked markers [] else none
  | prev, c :: rest =>
    match (if cookedBoundary prev then tryMarkersCooked markers (c :: rest) else none) with
    | some r => some r
    | none => scanCookedAux markers (some c) rest

/-- `line.match(markerRegex)` for the scanner's cooked regex. -/
def matchLineCooked (markers : List Str) (line : Str) : Option (Str × Str) :=
  scanCookedAux markers none line

/-- Split file content on `/\r?\n/`, as `extractScanResults` does. -/
def splitLinesAux : Str → Str → List Str
  | acc, [] => [acc.reverse]
  | acc, '\r' :: '\n' :: rest => acc.reverse :: splitLinesAux [] rest
  | acc, '\n' :: rest => acc.reverse :: splitLinesAux [] rest
  | acc, c :: rest => splitLinesAux (c :: acc) rest

/-- The line list of a file's content. -/
def splitLines (content : Str) : List Str := splitLinesAux [] content

/-- One element of `ScannerService`'s result list (`ScanResult` from
`src/types/index.ts` with its `suggestedDebt`). -/
structure ScanResult where
  filePath : Str
  lineNumber : Nat
  marker : Str
  content : Str
  suggestedDebt : DebtFields
deriving DecidableEq, Repr

/-- `ScannerService.buildSuggestedDebt`: title `"<MARKER>: <description>"`
truncated to 100 characters, default severity/category/status/priority,
tags `[marker]` (`getRelativePath` is modelled as the identity on the
already-relative path). -/
def buildSuggestedDebt (filePath : Str) (lineNumber : Nat) (marker : Str)
    (description : Str) : DebtFields :=
  { title := (marker ++ strOf ": " ++ description).take 100,
    description := description, filePath := filePath,
    lineNumber := (lineNumber : Int), severity := DebtSeverity.low,
    category := DebtCategory.codeQuality, status := DebtStatus.Open,
    priority := DebtPriority.normal, tags := [marker] }

/-- `ScannerService.extractScanResults`: split into lines, match each line
against the cooked marker regex (at most one match per line), and build a
`ScanResult` with the marker uppercased and the description trimmed. -/
def extractScanResults (markers : List Str) (filePath : Str) (content : Str) :
    List ScanResult :=
  (splitLines content).enum.filterMap (fun pair =>
    (matchLineCooked markers pair.snd).map (fun g =>
      let marker := toUpperL g.fst
      let description := trimL g.snd
      { filePath := filePath, lineNumber := pair.fst + 1, marker := marker,
        content := pair.snd,
        suggestedDebt :=
          buildSuggestedDebt filePath (pair.fst + 1) marker description }))

/-- JavaScript `\w`: ASCII letters, digits and underscore. -/
def isWordChar (c : Char) : Bool := c.isAlpha || c.isDigit || c == '_'

/-- The properly escaped pattern's trailing `\s*(.+)$` (greedy whitespace,
then at least one character to the end of the line).  This is the regex
`(?:^|[^\\w])(M)(?:\\b)\\s*[:\-]\\s*(.+)$` that the repository's
TODO-conversion command (`registerConvertTodoCommand`) compiles with
doubled backslashes — the behaviour the scanner evidently intended. -/
def escWsTail : Str → Option Str
  | [] => none
  | c :: rest =>
    if c.isWhitespace then
      match escWsTail rest with
      | some g => some g
      | none => some (c :: rest)
    else some (c :: rest)

/-- The escaped pattern's `\s*[:\-]\s*(.+)$`. -/
def escDelimTail : Str → Option Str
  | [] => none
  | c :: rest =>
    if c == ':' || c == '-' then escWsTail rest
    else if c.isWhitespace then escDelimTail rest
    else none

/-- Try one marker of the escaped (conversion-command) regex at the current
position: marker case-insensitively, word boundary `\b`, then delimiter
and description. -/
def tryMarkerEscaped (m : Str) (s : Str) : Option (Str × Str) :=
  match stripHeadCI m s with
  | none => none
  | some rest =>
    if (match rest with | [] => true | c :: _ => !(isWordChar c)) then
      (escDelimTail rest).map (fun g => (s.take m.length, g))
    else none

/-- Alternation of the escaped regex. -/
def tryMarkersEscaped (markers : List Str) (s : Str) : Option (Str × Str) :=
  markers.findSome? (fun m => tryMarkerEscaped m s)

/-- The escaped `(?:^|[^\\w])` boundary. -/
def escBoundary : Option Char → Bool
  | none => true
  | some c => !(isWordChar c)

/-- Leftmost-match scan of one line with the escaped regex. -/
def scanEscapedAux (markers : List Str) : Option Char → Str → Option (Str × Str)
  | prev, [] => if escBoundary prev then tryMarkersEscaped markers [] else none
  | prev, c :: rest =>
    match (if escBoundary prev then tryMarkersEscaped markers (c :: rest) else none) with
    | some r => some r
    | none => scanEscapedAux markers (some c) rest

/-- `line.match(...)` for the escaped regex of the conversion command. -/
def matchLineEscaped (markers : List Str) (line : Str) : Option (Str × Str) :=
  scanEscapedAux markers none line

/-- C1 (code evidence): with the default marker vocabulary, the scanner's
`extractScanResults` finds no match at all in the line
`"// TODO: fix null check"` — its cooked regex demands a literal backspace
character after the marker — while the properly escaped variant of the
same pattern (compiled by the repository's TODO-conversion command)
yields exactly the match the claim and the repository's own scanner test
describe: marker `TODO`, description `fix null check`. -/
theorem scanner_marker_regex_bug :
    extractScanResults defaultDebtMarkers (strOf "src/sample.ts")
      (strOf "// TODO: fix null check") = [] ∧
    matchLineEscaped defaultDebtMarkers (strOf "// TODO: fix null check") =
      some (strOf "TODO", strOf "fix null check") := by
  constructor
  · rfl
  · rfl

end FixFlow
